import Mathlib

/-!
# Verification of the Meteora DLMM automation bot core

Shallow embedding, in Lean 4, of the parts of the repository that the
specification's claims are about:

* `MetricsService` (src/services/metrics.ts): pure financial metric
  computations.  `Big` (arbitrary-precision decimal) values are modelled as
  `ℚ`; the impermanent-loss computation calls the host square root, modelled
  as `Real.sqrt` over `ℝ`.
* `BaseStrategy` (strategies/base): initialization guard, risk filtering and
  priority sorting of candidate actions.
* `BalancedLiquidityStrategy.analyzeRebalancing` (strategies/balanced-liquidity):
  rebalance hysteresis and new-bin-range computation.
* `MarketDataService` (services/market-data): pool cache, refresh protocol and
  `getPoolData` failure semantics.  The external DLMM collaborator is modelled
  as an oracle argument (`Option` of the fetched snapshot: `none` = the
  refresh threw).
-/

namespace Binil

/-! ## Metrics engine (src/services/metrics.ts)

`Big` decimals are modelled as exact rationals.  Each function mirrors the
source's branch structure, including the `try`/`catch` fallbacks where a
`Big` operation can throw (division by zero is the only throwing operation
reachable in these functions; `Big.div` throws on a zero divisor and the
`catch` block returns the function's fallback value). -/

/-- `MetricsService.calculateAPR(fees24h, totalLiquidity)`:
returns `0` when `totalLiquidity.eq(0)`, otherwise
`dailyRate * 365 * 100` with `dailyRate = fees24h / totalLiquidity`. -/
def calculateAPR (fees24h totalLiquidity : ℚ) : ℚ :=
  if totalLiquidity = 0 then 0
  else fees24h / totalLiquidity * 365 * 100

/-- `MetricsService.calculateCompoundedAPR(dailyFee, totalLiquidity, daysPerYear)`:
returns `0` when `totalLiquidity.eq(0)`, otherwise
`((1 + dailyRate)^daysPerYear - 1) * 100`.  The call sites use the default
`daysPerYear = 365`; here it is an explicit argument. -/
def calculateCompoundedAPR (dailyFee totalLiquidity : ℚ) (daysPerYear : ℕ) : ℚ :=
  if totalLiquidity = 0 then 0
  else ((1 + dailyFee / totalLiquidity) ^ daysPerYear - 1) * 100

/-- `MetricsService.calculateBinPrice(binId, binStep, basePrice)`:
`basePrice * (1 + binStep/10000) ^ binId` (`binStep` in basis points,
`binId` a possibly negative integer exponent). -/
def calculateBinPrice (binId : ℤ) (binStep : ℚ) (basePrice : ℚ) : ℚ :=
  basePrice * (1 + binStep / 10000) ^ binId

/-- `MetricsService.calculateImpermanentLoss(initialPriceRatio, currentPriceRatio)`:
`0` when either ratio `.eq(0)`; otherwise `2*sqrt(r)/(1+r) - 1` with
`r = current/initial` (`Math.sqrt` modelled as `Real.sqrt`). -/
noncomputable def calculateImpermanentLoss (initialPriceRatio currentPriceRatio : ℝ) : ℝ :=
  if initialPriceRatio = 0 ∨ currentPriceRatio = 0 then 0
  else
    let ratio := currentPriceRatio / initialPriceRatio
    2 * Real.sqrt ratio / (1 + ratio) - 1

/-- One element of the `binData` argument of
`MetricsService.getLiquidityDistribution`: the pair
`(liquidityX, liquidityY)` of a bin. -/
structure BinLiq where
  liquidityX : ℚ
  liquidityY : ℚ
deriving DecidableEq, Repr

/-- `MetricsService.getLiquidityDistribution(binData)`:
`(0, 0)` for an empty list; otherwise shares are
`(xᵢ+yᵢ)/(totalX+totalY)`, the concentration index is `1 - Σ shareᵢ²`, and
the ratio is `totalY/totalX` (or `0` when `totalX.eq(0)`).
When `totalX + totalY = 0` the source's `Big.div` throws on the first share
and the surrounding `catch` returns `(0, 0)`. -/
def getLiquidityDistribution (binData : List BinLiq) : ℚ × ℚ :=
  if binData = [] then (0, 0)
  else
    let totalX := (binData.map (·.liquidityX)).sum
    let totalY := (binData.map (·.liquidityY)).sum
    if totalX + totalY = 0 then (0, 0)
    else
      let liquidityShares :=
        binData.map (fun bin => (bin.liquidityX + bin.liquidityY) / (totalX + totalY))
      let concentrationIndex := 1 - (liquidityShares.map (fun s => s * s)).sum
      let liquidityRatio := if totalX = 0 then 0 else totalY / totalX
      (concentrationIndex, liquidityRatio)

/-! ## C3: APR formula and edge cases -/

/-- **C3.** For all non-negative `fees24h` and `liquidity`: APR is `0` at zero
liquidity, equals `(fees24h/liquidity)*365*100` otherwise, `APR(100,10000) = 365`,
and `APR(0, l) = 0` for every `l`. -/
theorem C3_calculateAPR_spec (f l : ℚ) (hf : 0 ≤ f) (hl : 0 ≤ l) :
    calculateAPR f 0 = 0 ∧
    (l ≠ 0 → calculateAPR f l = f / l * 365 * 100) ∧
    calculateAPR (100 : ℚ) (10000 : ℚ) = 365 ∧
    calculateAPR 0 l = 0 := by
  refine ⟨by simp [calculateAPR], fun h => by simp [calculateAPR, h], by norm_num [calculateAPR], ?_⟩
  by_cases h : l = 0 <;> simp [calculateAPR, h]

/-- Witness for `C3_calculateAPR_spec` at `f = 100`, `l = 10000`. -/
theorem C3_calculateAPR_spec_witness :
    (0 : ℚ) ≤ 100 ∧ calculateAPR (100 : ℚ) (10000 : ℚ) = 365 :=
  ⟨by norm_num, (C3_calculateAPR_spec 100 10000 (by norm_num) (by norm_num)).2.2.1⟩

/-! ## C4: compounded APR dominates linear APR -/

/-- **C4.** For every positive daily fee `f` and positive liquidity `l`,
the compounded APR `((1 + f/l)^365 - 1) * 100` is at least the linear APR
`(f/l) * 365 * 100`. -/
theorem C4_compoundedAPR_ge_APR (f l : ℚ) (hf : 0 < f) (hl : 0 < l) :
    calculateAPR f l ≤ calculateCompoundedAPR f l 365 := by
  have hl0 : l ≠ 0 := ne_of_gt hl
  have hr : (0 : ℚ) < f / l := div_pos hf hl
  have hber := one_add_mul_le_pow (a := f / l) (by linarith) 365
  push_cast at hber
  simp only [calculateAPR, calculateCompoundedAPR, if_neg hl0]
  generalize hX : (1 + f / l) ^ (365 : ℕ) = X at hber ⊢
  linarith

/-- Witness for `C4_compoundedAPR_ge_APR` at `f = 1`, `l = 1`. -/
theorem C4_compoundedAPR_ge_APR_witness :
    (0 : ℚ) < 1 ∧ calculateAPR 1 1 ≤ calculateCompoundedAPR 1 1 365 :=
  ⟨by norm_num, C4_compoundedAPR_ge_APR 1 1 (by norm_num) (by norm_num)⟩

/-! ## C5: impermanent loss -/

/-- **C5.** Impermanent loss is `0` when either ratio is `0`, otherwise equals
`2*sqrt(r)/(1+r) - 1` with `r = current/initial`; it is `0` at equal ratios
(`IL(r, r) = 0` for `r > 0`), strictly negative at `IL(1, r)` for positive
`r ≠ 1`, and never positive on non-negative inputs. -/
theorem C5_impermanentLoss_spec (i c r : ℝ) (hr : 0 < r) :
    (i = 0 ∨ c = 0 → calculateImpermanentLoss i c = 0) ∧
    (i ≠ 0 → c ≠ 0 →
      calculateImpermanentLoss i c = 2 * Real.sqrt (c / i) / (1 + c / i) - 1) ∧
    calculateImpermanentLoss r r = 0 ∧
    (r ≠ 1 → calculateImpermanentLoss 1 r < 0) ∧
    (0 ≤ i → 0 ≤ c → calculateImpermanentLoss i c ≤ 0) := by
  have hr0 : r ≠ 0 := ne_of_gt hr
  refine ⟨fun h => by simp [calculateImpermanentLoss, h], ?_, ?_, ?_, ?_⟩
  · intro hi hc
    simp [calculateImpermanentLoss, hi, hc]
  · simp [calculateImpermanentLoss, hr0, div_self hr0]
    norm_num
  · intro hr1
    have hs : Real.sqrt r ≠ 1 := by
      intro h
      apply hr1
      have := Real.sq_sqrt hr.le
      rw [h] at this
      simpa using this.symm
    have hsq : Real.sqrt r ^ 2 = r := Real.sq_sqrt hr.le
    have hkey : 2 * Real.sqrt r < 1 + r := by
      have h2 : 0 < (Real.sqrt r - 1) ^ 2 :=
        lt_of_le_of_ne (sq_nonneg _) (Ne.symm (pow_ne_zero 2 (sub_ne_zero.mpr hs)))
      nlinarith [h2, hsq]
    have hden : (0 : ℝ) < 1 + r := by linarith
    simp only [calculateImpermanentLoss, one_ne_zero, hr0, or_self, if_false, false_or,
      if_neg hr0, div_one]
    rw [sub_neg, div_lt_one hden]
    exact hkey
  · intro hi hc
    by_cases hizero : i = 0
    · simp [calculateImpermanentLoss, hizero]
    by_cases hczero : c = 0
    · simp [calculateImpermanentLoss, hczero]
    have hipos : 0 < i := lt_of_le_of_ne hi (Ne.symm hizero)
    have hcpos : 0 < c := lt_of_le_of_ne hc (Ne.symm hczero)
    have hratio : 0 < c / i := div_pos hcpos hipos
    have hsq : Real.sqrt (c / i) ^ 2 = c / i := Real.sq_sqrt hratio.le
    have hsnn : 0 ≤ Real.sqrt (c / i) := Real.sqrt_nonneg _
    have hkey : 2 * Real.sqrt (c / i) ≤ 1 + c / i := by
      nlinarith [sq_nonneg (Real.sqrt (c / i) - 1)]
    have hden : (0 : ℝ) < 1 + c / i := by linarith
    simp only [calculateImpermanentLoss, hizero, hczero, or_self, if_false]
    rw [sub_nonpos, div_le_one hden]
    exact hkey

/-- Witness for `C5_impermanentLoss_spec` at `i = 1`, `c = 4`, `r = 4`:
`IL(4, 4) = 0` and `IL(1, 4) < 0`. -/
theorem C5_impermanentLoss_spec_witness :
    (0 : ℝ) < 4 ∧ calculateImpermanentLoss 4 4 = 0 ∧
      ((4 : ℝ) ≠ 1 → calculateImpermanentLoss 1 4 < 0) :=
  ⟨by norm_num, (C5_impermanentLoss_spec 1 4 4 (by norm_num)).2.2.1,
    (C5_impermanentLoss_spec 1 4 4 (by norm_num)).2.2.2.1⟩

/-! ## C6: bin price formula and strict monotonicity in the bin id -/

/-- **C6.** `BinPrice(binId, binStep, basePrice) = basePrice * (1 + binStep/10000)^binId`
and, for fixed positive `binStep` (and a positive base price, as prices are in
the data model), it is strictly increasing in `binId`. -/
theorem C6_binPrice_strictMono (i j : ℤ) (s b : ℚ) (hs : 0 < s) (hb : 0 < b)
    (hij : i < j) :
    calculateBinPrice i s b = b * (1 + s / 10000) ^ i ∧
    calculateBinPrice i s b < calculateBinPrice j s b := by
  refine ⟨rfl, ?_⟩
  have hbase : (1 : ℚ) < 1 + s / 10000 := by
    have : (0 : ℚ) < s / 10000 := by positivity
    linarith
  have hpow : (1 + s / 10000) ^ i < (1 + s / 10000) ^ j :=
    zpow_lt_zpow_right₀ hbase hij
  exact mul_lt_mul_of_pos_left hpow hb

/-- Witness for `C6_binPrice_strictMono` at `i = 0`, `j = 1`, `s = 25`, `b = 2`. -/
theorem C6_binPrice_strictMono_witness :
    (0 : ℚ) < 25 ∧ calculateBinPrice 0 25 2 < calculateBinPrice 1 25 2 :=
  ⟨by norm_num, (C6_binPrice_strictMono 0 1 25 2 (by norm_num) (by norm_num) (by norm_num)).2⟩

/-! ## C7 / C10: liquidity distribution -/

/-- Sum of a mapped list all of whose images are the constant `c`. -/
theorem sum_map_of_const {α : Type} (l : List α) (f : α → ℚ) (c : ℚ)
    (h : ∀ b ∈ l, f b = c) : (l.map f).sum = l.length * c := by
  induction l with
  | nil => simp
  | cons a l ih =>
    have ha := h a (List.mem_cons_self a l)
    have ihl := ih (fun b hb => h b (List.mem_cons_of_mem a hb))
    simp [ha, ihl]
    ring

/-- Splitting the per-bin total-liquidity sum into the X and Y sums. -/
theorem sum_map_add_split (l : List BinLiq) :
    (l.map (fun b => b.liquidityX + b.liquidityY)).sum =
      (l.map (·.liquidityX)).sum + (l.map (·.liquidityY)).sum := by
  induction l with
  | nil => simp
  | cons a l ih => simp [ih]; ring

/-- **C7.** `getLiquidityDistribution` returns `(0, 0)` on an empty bin set;
on `n` bins of equal positive per-bin liquidity the concentration index is
`1 - 1/n`; whenever the computation does not degenerate, the second component
is `totalY / totalX`, and `0` when `totalX = 0`. -/
theorem C7_liquidityDistribution_spec (l : List BinLiq) (t : ℚ) (ht : 0 < t)
    (hne : l ≠ []) (heq : ∀ b ∈ l, b.liquidityX + b.liquidityY = t) :
    getLiquidityDistribution [] = (0, 0) ∧
    (getLiquidityDistribution l).1 = 1 - 1 / (l.length : ℚ) ∧
    (∀ l' : List BinLiq, l' ≠ [] →
      (l'.map (·.liquidityX)).sum + (l'.map (·.liquidityY)).sum ≠ 0 →
      (getLiquidityDistribution l').2 =
        if (l'.map (·.liquidityX)).sum = 0 then 0
        else (l'.map (·.liquidityY)).sum / (l'.map (·.liquidityX)).sum) := by
  have hn : l.length ≠ 0 := by
    intro h
    exact hne (List.length_eq_zero.mp h)
  have hnq : (l.length : ℚ) ≠ 0 := Nat.cast_ne_zero.mpr hn
  have htot : (l.map (·.liquidityX)).sum + (l.map (·.liquidityY)).sum =
      (l.length : ℚ) * t := by
    rw [← sum_map_add_split]
    exact sum_map_of_const l _ t heq
  have htne : ((l.length : ℚ) * t) ≠ 0 := mul_ne_zero hnq (ne_of_gt ht)
  refine ⟨by simp [getLiquidityDistribution], ?_, ?_⟩
  · simp only [getLiquidityDistribution, if_neg hne, htot, if_neg htne]
    have hshares : (l.map (fun bin =>
        (bin.liquidityX + bin.liquidityY) / ((l.length : ℚ) * t))).sum =
        (l.length : ℚ) * (1 / (l.length : ℚ)) := by
      apply sum_map_of_const
      intro b hb
      rw [heq b hb]
      field_simp
      ring
    have hsq : ((l.map (fun bin =>
        (bin.liquidityX + bin.liquidityY) / ((l.length : ℚ) * t))).map
          (fun s => s * s)).sum =
        (l.length : ℚ) * (1 / (l.length : ℚ) * (1 / (l.length : ℚ))) := by
      rw [List.map_map]
      apply sum_map_of_const
      intro b hb
      simp only [Function.comp_apply]
      rw [heq b hb]
      field_simp
      ring
    rw [hsq]
    field_simp
  · intro l' hne' htot'
    simp only [getLiquidityDistribution, if_neg hne', if_neg htot']

/-- Witness for `C7_liquidityDistribution_spec` on two bins of per-bin
liquidity `2`: the concentration index is `1 - 1/2`. -/
theorem C7_liquidityDistribution_spec_witness :
    (0 : ℚ) < 2 ∧
    (getLiquidityDistribution [⟨1, 1⟩, ⟨1, 1⟩]).1 =
      1 - 1 / (([(⟨1, 1⟩ : BinLiq), ⟨1, 1⟩].length : ℚ)) :=
  ⟨by norm_num,
    (C7_liquidityDistribution_spec [⟨1, 1⟩, ⟨1, 1⟩] 2 (by norm_num) (by simp)
      (by intro b hb; fin_cases hb <;> norm_num)).2.1⟩

/-- **C10.** A non-empty bin list whose entries are all zero makes the share
computation divide by a zero total; the `catch` yields `(0, 0)`, the same
value as for the empty list, and no error escapes. -/
theorem C10_zeroTotal_caught (l : List BinLiq) (hne : l ≠ [])
    (hz : ∀ b ∈ l, b.liquidityX = 0 ∧ b.liquidityY = 0) :
    getLiquidityDistribution l = (0, 0) := by
  have hx : (l.map (·.liquidityX)).sum = (l.length : ℚ) * 0 :=
    sum_map_of_const l _ 0 (fun b hb => (hz b hb).1)
  have hy : (l.map (·.liquidityY)).sum = (l.length : ℚ) * 0 :=
    sum_map_of_const l _ 0 (fun b hb => (hz b hb).2)
  simp only [getLiquidityDistribution, if_neg hne, hx, hy]
  norm_num

/-- Witness for `C10_zeroTotal_caught` on the single all-zero bin. -/
theorem C10_zeroTotal_caught_witness :
    ([(⟨0, 0⟩ : BinLiq)] ≠ []) ∧ getLiquidityDistribution [⟨0, 0⟩] = (0, 0) :=
  ⟨by simp, C10_zeroTotal_caught [⟨0, 0⟩] (by simp)
    (by intro b hb; fin_cases hb <;> norm_num)⟩

/-! ## Strategy layer (strategies/base, strategies/balanced-liquidity)

`StrategyAction`, `StrategyConfig` and `MarketData` carry the fields the
analysis pipeline reads; the parameter bag keeps the optional members the
risk filter and the balanced-liquidity strategy inspect (`liquidityAmount`,
`binRange`, `slippage`, `positionId`).  TS `number` bin counts and ids are
integers; money/ratio values are `ℚ`. -/

/-- `ActionType` (src/types). -/
inductive ActionType where
  | createPosition
  | closePosition
  | rebalance
  | collectFees
  | adjustRange
  | emergencyExit
deriving DecidableEq, Repr

/-- The members of the `parameters` bag that the analysis pipeline reads.
`none` models an absent (`undefined`) member. -/
structure ActionParameters where
  liquidityAmount : Option ℚ
  binRange : Option (ℤ × ℤ)
  slippage : Option ℚ
  positionId : Option String
deriving DecidableEq, Repr

/-- `StrategyAction` (src/types). -/
structure StrategyAction where
  type : ActionType
  poolAddress : String
  parameters : ActionParameters
  priority : ℚ
  estimatedGas : ℕ
  expectedReturn : Option ℚ
deriving DecidableEq, Repr

/-- `RiskParameters` (src/types). -/
structure RiskParameters where
  maxPositionSize : ℚ
  maxSlippage : ℚ
  volatilityThreshold : ℚ
  concentrationLimit : ℚ
deriving DecidableEq, Repr

/-- The fields of `StrategyConfig` that `BaseStrategy` validates and the risk
filter reads. -/
structure StrategyConfig where
  poolAddress : String
  maxPositionSize : ℚ
  riskParameters : RiskParameters
deriving DecidableEq, Repr

/-- The per-pool snapshot fields of `MarketData.pools` that the strategy
pipeline reads. -/
structure PoolInfo where
  address : String
  volatility : ℚ
  apr : ℚ
  fees24h : ℚ
  liquidity : ℚ
  activeId : ℤ
deriving DecidableEq, Repr

/-- `MarketData` as seen by `analyze` (only the pool list is consulted by the
risk filter and priority computation). -/
structure MarketData where
  pools : List PoolInfo
deriving DecidableEq, Repr

/-- `marketData.pools.find(p => p.address === action.poolAddress)`. -/
def findPool (md : MarketData) (addr : String) : Option PoolInfo :=
  md.pools.find? (fun p => p.address == addr)

/-- `ExecutionResult` (src/types). -/
structure ExecutionResult where
  success : Bool
  transactionId : Option String
  error : Option String
  actualReturn : Option ℚ
deriving DecidableEq, Repr

/-- `BaseStrategy.estimateGas`: per-type base gas estimates. -/
def estimateGas (t : ActionType) : ℕ :=
  match t with
  | .createPosition => 300000
  | .closePosition => 200000
  | .rebalance => 400000
  | .collectFees => 150000
  | .adjustRange => 350000
  | .emergencyExit => 250000

/-- `BaseStrategy.createAction`: an action with base priority 50 and the gas
estimate of its type. -/
def createAction (type : ActionType) (poolAddress : String)
    (parameters : ActionParameters) (expectedReturn : Option ℚ) : StrategyAction :=
  { type := type
    poolAddress := poolAddress
    parameters := parameters
    priority := 50
    estimatedGas := estimateGas type
    expectedReturn := expectedReturn }

/-- `BaseStrategy.isActionSafe`: sequentially rejects an action whose
`liquidityAmount` exceeds `config.maxPositionSize`, whose target pool (when
found in the market data) has `volatility` above the threshold, or whose
`slippage` (when present and non-zero — a JS falsy check) exceeds
`maxSlippage`; otherwise defers to the strategy-specific check. -/
def isActionSafe (cfg : StrategyConfig) (specific : StrategyAction → Bool)
    (md : MarketData) (a : StrategyAction) : Bool :=
  if (match a.parameters.liquidityAmount with
      | some amt => decide (cfg.maxPositionSize < amt)
      | none => false) then false
  else if (match findPool md a.poolAddress with
      | some p => decide (cfg.riskParameters.volatilityThreshold < p.volatility)
      | none => false) then false
  else if (match a.parameters.slippage with
      | some s => decide (s ≠ 0) && decide (cfg.riskParameters.maxSlippage < s)
      | none => false) then false
  else specific a

/-- `BaseStrategy.applyRiskFilters`: keeps exactly the actions `isActionSafe`
accepts, in order; rejected actions are only logged. -/
def applyRiskFilters (cfg : StrategyConfig) (specific : StrategyAction → Bool)
    (md : MarketData) (actions : List StrategyAction) : List StrategyAction :=
  actions.filter (isActionSafe cfg specific md)

/-- The comparator `(a, b) => b.priority - a.priority`: `a` may precede `b`
when `b.priority ≤ a.priority`. -/
def prioGE (a b : StrategyAction) : Prop := b.priority ≤ a.priority

instance : DecidableRel prioGE := fun a b =>
  inferInstanceAs (Decidable (b.priority ≤ a.priority))

instance : IsTotal StrategyAction prioGE :=
  ⟨fun a b => le_total b.priority a.priority⟩

instance : IsTrans StrategyAction prioGE :=
  ⟨fun _ _ _ h1 h2 => le_trans h2 h1⟩

/-- `filteredActions.sort((a, b) => b.priority - a.priority)`: a stable sort
into descending priority order. -/
def sortActions (actions : List StrategyAction) : List StrategyAction :=
  actions.insertionSort prioGE

/-- The `BaseStrategy` instance state: the `isInitialized` flag and the
configuration installed by `initialize`. -/
structure BStrategy where
  name : String
  isInitialized : Bool
  config : StrategyConfig
deriving DecidableEq, Repr

/-- `BaseStrategy.validateConfig`: requires a non-empty pool address and a
positive max position size (risk parameters are always present here). -/
def validateConfig (cfg : StrategyConfig) : Bool :=
  cfg.poolAddress != "" && decide (0 < cfg.maxPositionSize)

/-- `BaseStrategy.initialize(config)`: stores the config, validates it, and
sets `isInitialized` on success; a validation failure is rethrown. -/
def initStrategy (st : BStrategy) (cfg : StrategyConfig) :
    Except String BStrategy :=
  if validateConfig cfg then
    .ok { st with isInitialized := true, config := cfg }
  else
    .error "invalid strategy config"

/-- `BaseStrategy.analyze(marketData)`: throws `Strategy <name> not initialized`
when the strategy is not initialized; otherwise risk-filters the candidate
actions produced by `onAnalyze` (here the `candidates` argument) and sorts
the survivors by descending priority. -/
def analyze (st : BStrategy) (specific : StrategyAction → Bool)
    (md : MarketData) (candidates : List StrategyAction) :
    Except String (List StrategyAction) :=
  if st.isInitialized then
    .ok (sortActions (applyRiskFilters st.config specific md candidates))
  else
    .error ("Strategy " ++ st.name ++ " not initialized")

/-- `BaseStrategy.execute(action)`: throws the same not-initialized error
before doing anything; otherwise delegates to `onExecute`, whose result is
the `onExec` argument. -/
def execute (st : BStrategy) (onExec : ExecutionResult) :
    Except String ExecutionResult :=
  if st.isInitialized then .ok onExec
  else .error ("Strategy " ++ st.name ++ " not initialized")

/-- `BaseStrategy.cleanup()`: resets `isInitialized`. -/
def cleanup (st : BStrategy) : BStrategy :=
  { st with isInitialized := false }

/-! ## C2: analyze output is risk-filtered and priority-sorted -/

/-- What passing `isActionSafe` guarantees about one action. -/
theorem isActionSafe_checks (cfg : StrategyConfig) (specific : StrategyAction → Bool)
    (md : MarketData) (a : StrategyAction) (h : isActionSafe cfg specific md a = true) :
    (∀ amt, a.parameters.liquidityAmount = some amt → amt ≤ cfg.maxPositionSize) ∧
    (∀ p, findPool md a.poolAddress = some p →
      p.volatility ≤ cfg.riskParameters.volatilityThreshold) ∧
    (∀ s, a.parameters.slippage = some s →
      s = 0 ∨ s ≤ cfg.riskParameters.maxSlippage) ∧
    specific a = true := by
  unfold isActionSafe at h
  split at h
  · exact absurd h (by simp)
  split at h
  · exact absurd h (by simp)
  split at h
  · exact absurd h (by simp)
  rename_i hc1 hc2 hc3
  refine ⟨?_, ?_, ?_, h⟩
  · intro amt hamt
    rw [hamt] at hc1
    simpa using le_of_not_lt (by simpa using hc1)
  · intro p hp
    rw [hp] at hc2
    simpa using le_of_not_lt (by simpa using hc2)
  · intro s hs
    rw [hs] at hc3
    simp only [Bool.and_eq_true, decide_eq_true_eq, not_and] at hc3
    by_cases hz : s = 0
    · exact Or.inl hz
    · exact Or.inr (le_of_not_lt (hc3 hz))

/-- **C2.** On an initialized strategy, `analyze` succeeds and its output
contains no action whose `liquidityAmount` exceeds `maxPositionSize`, none
targeting a pool whose volatility exceeds `volatilityThreshold`, none whose
slippage exceeds `maxSlippage`; the output is exactly the safe subset of the
candidates (rejections are silent omissions, nothing is raised) and is
sorted in descending priority order. -/
theorem C2_analyze_risk_filtered (st : BStrategy) (specific : StrategyAction → Bool)
    (md : MarketData) (candidates : List StrategyAction)
    (hinit : st.isInitialized = true)
    (hslip : 0 ≤ st.config.riskParameters.maxSlippage) :
    ∃ out, analyze st specific md candidates = .ok out ∧
      (∀ a ∈ out, ∀ amt, a.parameters.liquidityAmount = some amt →
        amt ≤ st.config.maxPositionSize) ∧
      (∀ a ∈ out, ∀ p, findPool md a.poolAddress = some p →
        p.volatility ≤ st.config.riskParameters.volatilityThreshold) ∧
      (∀ a ∈ out, ∀ s, a.parameters.slippage = some s →
        s ≤ st.config.riskParameters.maxSlippage) ∧
      (∀ a, a ∈ out ↔
        a ∈ candidates ∧ isActionSafe st.config specific md a = true) ∧
      List.Sorted prioGE out := by
  refine ⟨sortActions (applyRiskFilters st.config specific md candidates),
    by simp [analyze, hinit], ?_, ?_, ?_, ?_, ?_⟩
  all_goals
    try (intro a ha)
  case _ =>
    intro amt hamt
    have hmem : a ∈ applyRiskFilters st.config specific md candidates :=
      (List.perm_insertionSort prioGE _).mem_iff.mp ha
    have hsafe := (List.mem_filter.mp hmem).2
    exact (isActionSafe_checks _ _ _ _ hsafe).1 amt hamt
  case _ =>
    intro p hp
    have hmem : a ∈ applyRiskFilters st.config specific md candidates :=
      (List.perm_insertionSort prioGE _).mem_iff.mp ha
    have hsafe := (List.mem_filter.mp hmem).2
    exact (isActionSafe_checks _ _ _ _ hsafe).2.1 p hp
  case _ =>
    intro s hs
    have hmem : a ∈ applyRiskFilters st.config specific md candidates :=
      (List.perm_insertionSort prioGE _).mem_iff.mp ha
    have hsafe := (List.mem_filter.mp hmem).2
    rcases (isActionSafe_checks _ _ _ _ hsafe).2.2.1 s hs with hz | hle
    · rw [hz]; exact hslip
    · exact hle
  case _ =>
    intro a
    rw [sortActions, (List.perm_insertionSort prioGE _).mem_iff,
      applyRiskFilters, List.mem_filter]
  case _ =>
    exact List.sorted_insertionSort prioGE _

/-- Witness for `C2_analyze_risk_filtered` on a concrete initialized strategy
and one candidate action. -/
theorem C2_analyze_risk_filtered_witness :
    let cfg : StrategyConfig :=
      { poolAddress := "pool"
        maxPositionSize := 1000
        riskParameters :=
          { maxPositionSize := 1000, maxSlippage := 1/100
            volatilityThreshold := 1/2, concentrationLimit := 1/4 } }
    let st : BStrategy := { name := "balanced_liquidity", isInitialized := true, config := cfg }
    let md : MarketData := { pools := [⟨"pool", 1/10, 1/5, 50, 20000, 100⟩] }
    let a := createAction .createPosition "pool"
      ⟨some 100, some (90, 110), some (1/100), none⟩ none
    ∃ out, analyze st (fun _ => true) md [a] = .ok out ∧
      (∀ b ∈ out, ∀ amt, b.parameters.liquidityAmount = some amt →
        amt ≤ st.config.maxPositionSize) ∧
      (∀ b ∈ out, ∀ p, findPool md b.poolAddress = some p →
        p.volatility ≤ st.config.riskParameters.volatilityThreshold) ∧
      (∀ b ∈ out, ∀ s, b.parameters.slippage = some s →
        s ≤ st.config.riskParameters.maxSlippage) ∧
      (∀ b, b ∈ out ↔
        b ∈ [a] ∧ isActionSafe st.config (fun _ => true) md b = true) ∧
      List.Sorted prioGE out :=
  C2_analyze_risk_filtered _ (fun _ => true) _ [_] rfl (by norm_num)

/-! ## C9: the not-initialized guard -/

/-- **C9.** `analyze` (and `execute`) on a non-initialized strategy — in
particular after `cleanup` — fail with the not-initialized error instead of
returning anything; after a successful `initialize` the guard passes and
`analyze` returns an action list. -/
theorem C9_notInitialized_guard (st st' : BStrategy)
    (specific : StrategyAction → Bool) (md : MarketData)
    (candidates : List StrategyAction) (r : ExecutionResult)
    (cfg : StrategyConfig) (huninit : st.isInitialized = false) :
    analyze st specific md candidates =
      .error ("Strategy " ++ st.name ++ " not initialized") ∧
    execute st r = .error ("Strategy " ++ st.name ++ " not initialized") ∧
    analyze (cleanup st') specific md candidates =
      .error ("Strategy " ++ st'.name ++ " not initialized") ∧
    (∀ st'', initStrategy st cfg = .ok st'' →
      ∃ out, analyze st'' specific md candidates = .ok out) := by
  refine ⟨by simp [analyze, huninit], by simp [execute, huninit],
    by simp [analyze, cleanup], ?_⟩
  intro st'' hok
  unfold initStrategy at hok
  split at hok
  · cases hok
    exact ⟨sortActions (applyRiskFilters cfg specific md candidates),
      by simp [analyze]⟩
  · cases hok

/-! ## Balanced-liquidity strategy: rebalancing hysteresis -/

/-- The bookkeeping of `BalancedLiquidityStrategy` used by
`analyzeRebalancing`: the last observed active bin id and the time of the
last rebalance (both reset by `onCleanup`). -/
structure RebalanceState where
  lastActiveBinId : ℤ
  lastRebalanceTime : ℤ
deriving DecidableEq, Repr

/-- `minRebalanceInterval = 300000` ms (5 minutes). -/
def minRebalanceInterval : ℤ := 300000

/-- `BalancedLiquidityStrategy.analyzeRebalancing(poolData)`: no action before
the cooldown elapses (state untouched); otherwise, when a last active bin was
recorded (`!== 0`) and the active bin moved by at least
`Math.floor(targetRange * rebalanceThreshold)` bins, emits one rebalance
action with bin range `[activeId - targetRange, activeId + targetRange]`;
finally records the current active bin.  Times are epoch milliseconds. -/
def analyzeRebalancing (targetRange : ℤ) (rebalanceThreshold : ℚ)
    (poolAddress : String) (st : RebalanceState)
    (currentActiveBinId : ℤ) (now : ℤ) :
    List StrategyAction × RebalanceState :=
  if now - st.lastRebalanceTime < minRebalanceInterval then ([], st)
  else
    let actions :=
      if st.lastActiveBinId ≠ 0 ∧
          ⌊(targetRange : ℚ) * rebalanceThreshold⌋ ≤ |currentActiveBinId - st.lastActiveBinId| then
        [createAction .rebalance poolAddress
          { liquidityAmount := none
            binRange := some (currentActiveBinId - targetRange,
              currentActiveBinId + targetRange)
            slippage := none
            positionId := none } none]
      else []
    (actions, { st with lastActiveBinId := currentActiveBinId })

/-! ## C8: the 100 → 112 rebalancing scenario -/

/-- **C8.** With the default configuration `targetRange = 10`,
`rebalanceThreshold = 0.05`, once the cooldown has elapsed, a move of the
active bin from 100 to 112 (movement 12 ≥ ⌊10 * 0.05⌋ = 0) emits exactly one
rebalance action with new bin range `[102, 122]`, and the current bin is
recorded. -/
theorem C8_rebalance_scenario (addr : String) (st : RebalanceState) (now : ℤ)
    (hlast : st.lastActiveBinId = 100)
    (hcool : minRebalanceInterval ≤ now - st.lastRebalanceTime) :
    analyzeRebalancing 10 (1/20) addr st 112 now =
      ([createAction .rebalance addr
          { liquidityAmount := none, binRange := some (102, 122)
            slippage := none, positionId := none } none],
        { st with lastActiveBinId := 112 }) := by
  have hnotlt : ¬ (now - st.lastRebalanceTime < minRebalanceInterval) :=
    not_lt.mpr hcool
  have hfloor : ⌊((10 : ℤ) : ℚ) * (1/20)⌋ = 0 := by norm_num
  simp only [analyzeRebalancing, if_neg hnotlt, hlast, hfloor]
  norm_num

/-- Witness for `C8_rebalance_scenario` at `lastRebalanceTime = 0`,
`now = 300000`. -/
theorem C8_rebalance_scenario_witness :
    (⟨100, 0⟩ : RebalanceState).lastActiveBinId = 100 ∧
    analyzeRebalancing 10 (1/20) "pool" ⟨100, 0⟩ 112 300000 =
      ([createAction .rebalance "pool"
          { liquidityAmount := none, binRange := some (102, 122)
            slippage := none, positionId := none } none],
        ⟨112, 0⟩) :=
  ⟨rfl, C8_rebalance_scenario "pool" ⟨100, 0⟩ 300000 rfl (by norm_num [minRebalanceInterval])⟩

/-- Witness for `C9_notInitialized_guard` on a concrete fresh strategy. -/
theorem C9_notInitialized_guard_witness :
    let cfg : StrategyConfig :=
      { poolAddress := "pool"
        maxPositionSize := 1000
        riskParameters :=
          { maxPositionSize := 1000, maxSlippage := 1/100
            volatilityThreshold := 1/2, concentrationLimit := 1/4 } }
    let st : BStrategy := { name := "balanced_liquidity", isInitialized := false, config := cfg }
    analyze st (fun _ => true) { pools := [] } [] =
      .error ("Strategy " ++ st.name ++ " not initialized") ∧
    execute st ⟨true, none, none, none⟩ =
      .error ("Strategy " ++ st.name ++ " not initialized") ∧
    analyze (cleanup st) (fun _ => true) { pools := [] } [] =
      .error ("Strategy " ++ st.name ++ " not initialized") ∧
    (∀ st'', initStrategy st cfg = .ok st'' →
      ∃ out, analyze st'' (fun _ => true) { pools := [] } [] = .ok out) :=
  C9_notInitialized_guard _ _ (fun _ => true) { pools := [] } [] ⟨true, none, none, none⟩ _ rfl

/-! ## Pool state cache (services/market-data)

`MarketDataService` keeps `poolCache : Map<string, PoolData>` and
`dlmmInstances : Map<string, DLMM>`.  The DLMM collaborator and the body of
`updatePoolData`'s `try` block are modelled by an oracle argument
`fetched : Option PoolData`: `some d` means the refresh succeeded and built
the snapshot `d`, `none` means some step threw.  `updatePoolData` catches,
logs and rethrows, and installs the new snapshot only on success;
`getPoolData` does not catch. -/

/-- The cached per-pool snapshot fields `getPoolData` decisions depend on. -/
structure PoolData where
  address : String
  activeId : ℤ
  lastUpdated : ℤ
deriving DecidableEq, Repr

/-- `MarketDataService`'s mutable state: the snapshot cache and the set of
tracked pool addresses (keys of `dlmmInstances`). -/
structure MarketDataState where
  poolCache : List (String × PoolData)
  dlmmInstances : List String
deriving DecidableEq, Repr

/-- `updateInterval = 30000` ms: the staleness threshold. -/
def updateInterval : ℤ := 30000

/-- `Map.get` on the pool cache. -/
def lookupPool (cache : List (String × PoolData)) (k : String) : Option PoolData :=
  (cache.find? (fun e => e.1 == k)).map (·.2)

/-- `Map.set` on the pool cache (replaces any previous entry for the key). -/
def setPool (cache : List (String × PoolData)) (k : String) (v : PoolData) :
    List (String × PoolData) :=
  (k, v) :: cache.filter (fun e => ¬(e.1 == k))

theorem lookupPool_setPool (cache : List (String × PoolData)) (k : String)
    (v : PoolData) : lookupPool (setPool cache k v) k = some v := by
  simp [lookupPool, setPool, List.find?]

/-- `isCacheValid(lastUpdate)`: the snapshot's age is below the threshold. -/
def isCacheValid (now lastUpdate : ℤ) : Bool :=
  decide (now - lastUpdate < updateInterval)

/-- `MarketDataService.updatePoolData`: on success, atomically replaces the
cached snapshot; on failure, logs and rethrows, leaving the cache untouched. -/
def updatePoolData (s : MarketDataState) (addr : String)
    (fetched : Option PoolData) : Except Unit MarketDataState :=
  match fetched with
  | none => .error ()
  | some d => .ok { s with poolCache := setPool s.poolCache addr d }

/-- The tail of `MarketDataService.getPoolData` after a cache miss or a stale
hit: `null` for an untracked address, otherwise a synchronous refresh whose
failure propagates, followed by `poolCache.get(addr) || null`. -/
def refreshAndRead (s : MarketDataState) (addr : String)
    (fetched : Option PoolData) :
    Except Unit (Option PoolData) × MarketDataState :=
  if addr ∈ s.dlmmInstances then
    match updatePoolData s addr fetched with
    | .error _ => (.error (), s)
    | .ok s' => (.ok (lookupPool s'.poolCache addr), s')
  else (.ok none, s)

/-- `MarketDataService.getPoolData(poolAddress)`: a fresh cached snapshot is
returned as is; otherwise the refresh path runs.  The first component is the
call's outcome (`.error ()` = the refresh's exception reached the caller);
the second is the service state afterwards. -/
def getPoolData (s : MarketDataState) (addr : String) (now : ℤ)
    (fetched : Option PoolData) :
    Except Unit (Option PoolData) × MarketDataState :=
  match lookupPool s.poolCache addr with
  | some cached =>
      if isCacheValid now cached.lastUpdated then (.ok (some cached), s)
      else refreshAndRead s addr fetched
  | none => refreshAndRead s addr fetched

/-- Unfolding `getPoolData` on a cache hit. -/
theorem getPoolData_cacheHit (s : MarketDataState) (addr : String) (now : ℤ)
    (fetched : Option PoolData) (cached : PoolData)
    (hc : lookupPool s.poolCache addr = some cached) :
    getPoolData s addr now fetched =
      if isCacheValid now cached.lastUpdated then (.ok (some cached), s)
      else refreshAndRead s addr fetched := by
  unfold getPoolData
  rw [hc]

/-- Unfolding `getPoolData` on a cache miss. -/
theorem getPoolData_cacheMiss (s : MarketDataState) (addr : String) (now : ℤ)
    (fetched : Option PoolData)
    (hc : lookupPool s.poolCache addr = none) :
    getPoolData s addr now fetched = refreshAndRead s addr fetched := by
  unfold getPoolData
  rw [hc]

/-! ## C1: getPoolData failure semantics

The claim says a failed refresh serves the previous (stale) snapshot.  In
the source, `updatePoolData` rethrows after logging and `getPoolData` does
not catch, so the failure reaches the caller of `getPoolData`; the stale
snapshot is only retained in the cache, not returned. -/

/-- The concrete state refuting C1: pool `"p"` is tracked and has a snapshot
obtained at time 0. -/
def c1Snapshot : PoolData := { address := "p", activeId := 100, lastUpdated := 0 }

/-- The service state for the C1 counterexample. -/
def c1State : MarketDataState :=
  { poolCache := [("p", c1Snapshot)], dlmmInstances := ["p"] }

/-- **C1, counterexample.** At time 60000 (snapshot 60 s old, hence stale)
with a failing refresh, a previously obtained snapshot exists, yet
`getPoolData` fails the caller with the refresh error instead of returning
the stale snapshot. -/
theorem C1_staleServe_counterexample :
    lookupPool c1State.poolCache "p" = some c1Snapshot ∧
    (getPoolData c1State "p" 60000 none).1 = Except.error () ∧
    (getPoolData c1State "p" 60000 none).1 ≠ Except.ok (some c1Snapshot) := by
  refine ⟨rfl, rfl, ?_⟩
  intro h
  simp only [getPoolData, c1State, c1Snapshot] at h
  cases h

/-- **C1, amended.** A fresh cached snapshot is served without refreshing.
When the snapshot is stale or absent: a failed refresh of a tracked pool
propagates the error to the caller of `getPoolData` — even when a previous
snapshot exists it is not returned, though it stays in the cache (the state
is unchanged) — a successful refresh returns the new snapshot, and `None` is
returned exactly for addresses that are not tracked (never added, or
removed). -/
theorem C1_getPoolData_amended (s : MarketDataState) (addr : String) (now : ℤ)
    (fetched : Option PoolData) :
    (∀ cached, lookupPool s.poolCache addr = some cached →
      isCacheValid now cached.lastUpdated = true →
      getPoolData s addr now fetched = (.ok (some cached), s)) ∧
    ((getPoolData s addr now fetched).1 = .ok none → addr ∉ s.dlmmInstances) ∧
    ((∀ cached, lookupPool s.poolCache addr = some cached →
        isCacheValid now cached.lastUpdated = false) →
      addr ∈ s.dlmmInstances → fetched = none →
      (getPoolData s addr now fetched).1 = .error () ∧
      (getPoolData s addr now fetched).2 = s) ∧
    ((∀ cached, lookupPool s.poolCache addr = some cached →
        isCacheValid now cached.lastUpdated = false) →
      addr ∈ s.dlmmInstances → ∀ d, fetched = some d →
      (getPoolData s addr now fetched).1 = .ok (some d)) := by
  have hpath : (∀ cached, lookupPool s.poolCache addr = some cached →
      isCacheValid now cached.lastUpdated = false) →
      getPoolData s addr now fetched = refreshAndRead s addr fetched := by
    intro hstale
    cases hc : lookupPool s.poolCache addr with
    | none => exact getPoolData_cacheMiss s addr now fetched hc
    | some cached =>
      rw [getPoolData_cacheHit s addr now fetched cached hc,
        if_neg (by simp [hstale cached hc])]
  refine ⟨?_, ?_, ?_, ?_⟩
  · intro cached hc hvalid
    rw [getPoolData_cacheHit s addr now fetched cached hc, if_pos hvalid]
  · intro hnone haddr
    have hrefresh : (refreshAndRead s addr fetched).1 ≠ .ok none := by
      unfold refreshAndRead
      rw [if_pos haddr]
      cases fetched with
      | none => simp [updatePoolData]
      | some d => simp [updatePoolData, lookupPool_setPool]
    cases hc : lookupPool s.poolCache addr with
    | none =>
      rw [getPoolData_cacheMiss s addr now fetched hc] at hnone
      exact hrefresh hnone
    | some cached =>
      rw [getPoolData_cacheHit s addr now fetched cached hc] at hnone
      by_cases hvalid : isCacheValid now cached.lastUpdated
      · rw [if_pos hvalid] at hnone
        cases hnone
      · rw [if_neg hvalid] at hnone
        exact hrefresh hnone
  · intro hstale haddr hfail
    rw [hpath hstale, refreshAndRead, if_pos haddr, hfail]
    exact ⟨rfl, rfl⟩
  · intro hstale haddr d hsucc
    rw [hpath hstale, refreshAndRead, if_pos haddr, hsucc]
    simp [updatePoolData, lookupPool_setPool]

/-- Witness for `C1_getPoolData_amended` on the counterexample state: the
failed refresh errors and preserves the state, and a successful refresh
serves the fetched snapshot. -/
theorem C1_getPoolData_amended_witness :
    ((getPoolData c1State "p" 60000 none).1 = .error () ∧
      (getPoolData c1State "p" 60000 none).2 = c1State) ∧
    (getPoolData c1State "p" 60000
        (some { address := "p", activeId := 112, lastUpdated := 60000 })).1 =
      .ok (some { address := "p", activeId := 112, lastUpdated := 60000 }) :=
  ⟨(C1_getPoolData_amended c1State "p" 60000 none).2.2.1
      (by
        intro cached hc
        simp only [c1State, c1Snapshot, lookupPool, List.find?] at hc
        simp at hc
        rw [← hc]
        rfl)
      (by simp [c1State]) rfl,
    (C1_getPoolData_amended c1State "p" 60000
        (some { address := "p", activeId := 112, lastUpdated := 60000 })).2.2.2
      (by
        intro cached hc
        simp only [c1State, c1Snapshot, lookupPool, List.find?] at hc
        simp at hc
        rw [← hc]
        rfl)
      (by simp [c1State]) _ rfl⟩

end Binil
